import Mathlib

/-!
# Verification of the bAbI story-parsing and vectorization pipeline

A shallow embedding of the data pipeline of `src/examples/babi_rnn.ipynb`:
the sentence tokenizer `tokenize`, the story parser `parse_stories`, the
story flattener `get_stories`, the vocabulary index `vocab` / `word_idx`,
and the vectorizer `vectorize_stories`.

Python strings are modelled as `List Char` (the notebook only ever handles
ASCII corpus text; the Unicode-aware parts of Python semantics such as
`\W` matching non-ASCII word characters, `int()` accepting underscores, or
`str.strip` removing exotic Unicode whitespace are modelled at the ASCII
level).  Fallible Python code (exceptions such as `ValueError`,
`TypeError`, `KeyError`, `IndexError`) is modelled with `Option`: `none`
means the call raises.
-/

set_option autoImplicit false

universe u v

/-! ## Python string helpers -/

/-- A word character in the sense of the regex class `\w` (ASCII range):
a letter, a digit, or an underscore. -/
def isWordChar (c : Char) : Bool :=
  c.isAlpha || c.isDigit || c == '_'

/-- A whitespace character in the sense of `str.strip()` / `str.split()`
(ASCII range): space, tab, newline, carriage return, vertical tab, form feed. -/
def isSpaceChar (c : Char) : Bool :=
  c == ' ' || c == '\t' || c == '\n' || c == '\r' || c == '\x0b' || c == '\x0c'

/-- Python `str.strip()` on a character list: remove leading and trailing whitespace. -/
def stripChars (l : List Char) : List Char :=
  ((l.dropWhile isSpaceChar).reverse.dropWhile isSpaceChar).reverse

/-- Group a character list into its maximal runs of characters of equal
class under the classifier `f`. -/
def splitRunsBy (f : Char → Bool) : List Char → List (List Char)
  | [] => []
  | c :: cs =>
    match splitRunsBy f cs with
    | [] => [[c]]
    | [] :: rs => [c] :: [] :: rs
    | (d :: r) :: rs =>
      if f c == f d then (c :: d :: r) :: rs
      else [c] :: (d :: r) :: rs

/-- The maximal runs of word / non-word characters.  `re.split` with the
capturing pattern `(\W+)?` under pre-3.7 semantics (empty matches skipped --
the notebook's own captured `FutureWarning` shows it runs under those
semantics) returns exactly these runs: the non-word runs are the captured
delimiters and the word runs are the fragments between them. -/
def splitRuns : List Char → List (List Char) :=
  splitRunsBy isWordChar

/-- The notebook function `tokenize(sent)`:
`[x.strip() for x in re.split('(\W+)?', sent) if x.strip()]`.
Each run is stripped of surrounding whitespace and empty results are
dropped. -/
def tokenize (sent : String) : List String :=
  ((splitRuns sent.data).map (fun r => String.mk (stripChars r))).filter
    (fun t => !t.isEmpty)

/-- Python `line.split(sep, 1)` when unpacked into two variables: returns the text
before the first occurrence of `sep` and the text after it, and fails
(`ValueError` on unpacking) when `sep` does not occur. -/
def splitFirst (sep : Char) : List Char → Option (List Char × List Char)
  | [] => none
  | c :: cs =>
    if c == sep then some ([], cs)
    else (splitFirst sep cs).map (fun p => (c :: p.1, p.2))

/-- Python `line.split(sep)` (full split on a single separator character).
`[] ↦ [[]]`, mirroring `''.split(sep) == ['']`. -/
def splitAll (sep : Char) : List Char → List (List Char)
  | [] => [[]]
  | c :: cs =>
    match splitAll sep cs with
    | [] => if c == sep then [[], []] else [[c]]
    | p :: ps => if c == sep then [] :: p :: ps else (c :: p) :: ps

/-- The membership test of a tab character, Python `'\t' in line`. -/
def hasTab (l : List Char) : Bool :=
  l.any (fun c => c == '\t')

/-- The unpacking `q, a, supporting = line.split('\t')`: fails unless the split has
exactly three fields. -/
def splitTab3 (l : List Char) : Option (List Char × List Char × List Char) :=
  match splitAll '\t' l with
  | [a, b, c] => some (a, b, c)
  | _ => none

/-- Python `supporting.split()` (no argument): the maximal runs of non-whitespace
characters, empty fragments dropped. -/
def splitWS (l : List Char) : List (List Char) :=
  (splitRunsBy isSpaceChar l).filter
    (fun r => !r.isEmpty && r.all (fun c => !isSpaceChar c))

/-- The numeric value of a run of ASCII decimal digits; `none` if the run
is empty or contains a non-digit. -/
def parseDigits : List Char → Option Nat
  | [] => none
  | [c] => if c.isDigit then some (c.toNat - 48) else none
  | c :: cs =>
    if c.isDigit then
      (parseDigits cs).map (fun n => (c.toNat - 48) * 10 ^ cs.length + n)
    else none

/-- Python `int(s)`: surrounding whitespace is allowed, then an optional sign and
a non-empty run of decimal digits. -/
def parseInt (l : List Char) : Option Int :=
  match stripChars l with
  | '-' :: rest => (parseDigits rest).map (fun n => -(n : Int))
  | '+' :: rest => (parseDigits rest).map (fun n => (n : Int))
  | rest => (parseDigits rest).map (fun n => (n : Int))

/-- Python list indexing `l[i]`: negative indices count from the end,
out-of-range indices raise `IndexError`. -/
def pyGet {α : Type u} (l : List α) (i : Int) : Option α :=
  if 0 ≤ i then l[i.toNat]?
  else if (-i) ≤ (l.length : Int) then l[l.length - (-i).toNat]? else none

/-! ## Option-valued list traversals

List comprehensions whose body or condition can raise are modelled as
`Option`-valued traversals: the first raising element makes the whole
comprehension raise. -/

/-- The comprehension `[f a for a in l]` where evaluating `f` can raise. -/
def mapO {α : Type u} {β : Type v} (f : α → Option β) : List α → Option (List β)
  | [] => some []
  | a :: as => (f a).bind (fun b => (mapO f as).map (fun bs => b :: bs))

/-- The comprehension `[a for a in l if p a]` where the condition `p` can raise. -/
def filterO {α : Type u} (p : α → Option Bool) : List α → Option (List α)
  | [] => some []
  | a :: as =>
    (p a).bind (fun b => (filterO p as).map (fun r => if b then a :: r else r))

/-! ## The story parser -/

/-- One entry of the `data` list built by `parse_stories`: the selected
story sentences (each a token list), the tokenized question, and the raw
answer string.

The empty placeholder string `''` that `parse_stories` appends to the
story buffer after a question line is modelled as the empty token list
`[]`: under the truthiness filter `[x for x in story if x]` and under
flattening of a singleton substory both behave identically. -/
structure RawExample where
  substory : List (List String)
  question : List String
  answer : String
deriving DecidableEq, Repr

/-- The mutable state of the `parse_stories` loop: the accumulated `data`
list and the current story buffer. -/
structure PState where
  data : List RawExample
  story : List (List String)
deriving DecidableEq, Repr

/-- The body of the `for line in lines` loop of `parse_stories`.  `none`
models an exception (unpacking failure on a line without a space,
`int()` failure, a tab-containing line without exactly three tab fields,
a bad supporting-fact index). -/
def parse_line (only_supporting : Bool) (st : PState) (l : String) :
    Option PState :=
  match splitFirst ' ' (stripChars l.data) with
  | none => none
  | some (nidChars, rest) =>
    match parseInt nidChars with
    | none => none
    | some nid =>
      let story0 := if nid = 1 then [] else st.story
      if hasTab rest then
        match splitTab3 rest with
        | none => none
        | some (q, a, supporting) =>
          (if only_supporting then
            (mapO parseInt (splitWS supporting)).bind
              (fun sup => mapO (fun i => pyGet story0 (i - 1)) sup)
          else
            some (story0.filter (fun x => !x.isEmpty))).map
          (fun substory =>
            ⟨st.data ++ [⟨substory, tokenize (String.mk q), String.mk a⟩],
             story0 ++ [[]]⟩)
      else
        some ⟨st.data, story0 ++ [tokenize (String.mk rest)]⟩

/-- The `for` loop of `parse_stories` over all input lines. -/
def parse_loop (only_supporting : Bool) : PState → List String → Option PState
  | st, [] => some st
  | st, l :: ls => (parse_line only_supporting st l).bind
      (fun st1 => parse_loop only_supporting st1 ls)

/-- The notebook function `parse_stories(lines, only_supporting)`: parse stories provided in the
bAbI tasks format, starting from an empty `data` list and an empty story
buffer.  (Input lines arrive as already-decoded text; the notebook's
`line.decode('utf-8')` is the identity on it.) -/
def parse_stories (lines : List String) (only_supporting : Bool) :
    Option (List RawExample) :=
  (parse_loop only_supporting ⟨[], []⟩ lines).map (fun st => st.data)

/-! ## `get_stories`: flattening and the max-length filter -/

/-- A flattened example as returned by `get_stories`: story tokens,
question tokens, answer. -/
structure FlatExample where
  story : List String
  question : List String
  answer : String
deriving DecidableEq, Repr

/-- The notebook lambda `flatten = lambda data: reduce(lambda x, y: x + y, data)`: `reduce`
with no initial value raises `TypeError` on an empty sequence. -/
def flatten (l : List (List String)) : Option (List String) :=
  match l with
  | [] => none
  | x :: xs => some (xs.foldl (fun a b => a ++ b) x)

/-- The filter condition of `get_stories`:
`not max_length or len(flatten(story)) < max_length`.  A `max_length` of
`None` or `0` is falsy, so the condition is `True` without evaluating
`flatten`; otherwise `flatten` runs (and can raise) and its length is
compared against the bound. -/
def keepShort (max_length : Option Nat) (ex : RawExample) : Option Bool :=
  match max_length with
  | none => some true
  | some m =>
    if m = 0 then some true
    else (flatten ex.substory).map (fun fs => decide (fs.length < m))

/-- The notebook function `get_stories(f, only_supporting, max_length)`: parse the lines,
filter by the optional max-length bound, flatten each kept story, and
finally evaluate `print(type(data), data[0])` -- which raises
`IndexError` when no example survives. -/
def get_stories (lines : List String) (only_supporting : Bool)
    (max_length : Option Nat) : Option (List FlatExample) :=
  (parse_stories lines only_supporting).bind (fun data =>
  (filterO (keepShort max_length) data).bind (fun kept =>
  (mapO (fun ex => (flatten ex.substory).map
      (fun fs => FlatExample.mk fs ex.question ex.answer)) kept).bind
  (fun out => if out.isEmpty then none else some out)))

/-! ## Spec-side story reconstruction (refinement reference for C1)

`spec_stories` is written from the specification's words, not from the
code: for every question line, in order, it records the concatenation of
the tokenized non-empty narrative sentences accumulated since the most
recent line whose sentence-id is 1; empty placeholder sentences do not
exist on this side at all. -/

/-- The state of the spec-side walk: the flattened stories emitted so far
and the tokenized narrative sentences seen since the most recent
sentence-id-1 line. -/
structure SState where
  outs : List (List String)
  narr : List (List String)
deriving DecidableEq, Repr

/-- Spec-side handling of one line: read the sentence-id before the first
space, reset the accumulated narrative on id 1, emit the concatenation of
its non-empty sentences at a question (tab-carrying) line, and accumulate
the tokenized sentence at a narrative line. -/
def spec_line (st : SState) (l : String) : Option SState :=
  match splitFirst ' ' (stripChars l.data) with
  | none => none
  | some (nidChars, rest) =>
    match parseInt nidChars with
    | none => none
    | some nid =>
      let narr0 := if nid = 1 then [] else st.narr
      if hasTab rest then
        match splitTab3 rest with
        | none => none
        | some _ =>
          some ⟨st.outs ++ [(narr0.filter (fun x => !x.isEmpty)).flatten], narr0⟩
      else
        some ⟨st.outs, narr0 ++ [tokenize (String.mk rest)]⟩

/-- The spec-side walk over all lines. -/
def spec_loop : SState → List String → Option SState
  | st, [] => some st
  | st, l :: ls => (spec_line st l).bind (fun st1 => spec_loop st1 ls)

/-- For each question line of the input, in order, the concatenation of
the tokenized non-empty narrative sentences accumulated since the most
recent line whose sentence-id is 1. -/
def spec_stories (lines : List String) : Option (List (List String)) :=
  (spec_loop ⟨[], []⟩ lines).map (fun st => st.outs)

/-! ## Vocabulary construction -/

/-- The tokens contributed by one example: `story + q + [answer]`. -/
def exTokens (ex : FlatExample) : List String :=
  ex.story ++ ex.question ++ [ex.answer]

/-- All tokens of all examples, in order of appearance. -/
def allTokens (exs : List FlatExample) : List String :=
  (exs.map exTokens).flatten

/-- The accumulation loop
`vocab = set(); for story, q, answer in train + test: vocab |= set(story + q + [answer])`. -/
def vocabSet (exs : List FlatExample) : Finset String :=
  exs.foldl (fun v ex => v ∪ (exTokens ex).toFinset) ∅

/-- Python's string comparison: lexicographic by code point, i.e. the
lexicographic order on the underlying character lists. -/
def strLe (a b : String) : Prop :=
  a.data ≤ b.data

instance : DecidableRel strLe := fun a b =>
  (inferInstance : Decidable (a.data ≤ b.data))

instance : IsTrans String strLe :=
  ⟨fun _ _ _ h1 h2 => le_trans h1 h2⟩

instance : IsAntisymm String strLe :=
  ⟨fun a b h1 h2 => by
    cases a; cases b; exact congrArg String.mk (le_antisymm h1 h2)⟩

instance : IsTotal String strLe :=
  ⟨fun a b => le_total a.data b.data⟩

/-- The notebook step `vocab = sorted(vocab)`: iterating a Python set and sorting yields the
distinct elements in increasing order, so `sorted(vocab)` is the sorted
deduplication of the accumulated tokens (the set `vocabSet exs` is exactly
the set of elements of `allTokens exs`, proved in `vocabSet_eq_toFinset`
below). -/
def vocab (exs : List FlatExample) : List String :=
  List.insertionSort strLe (allTokens exs).dedup

/-- The dict comprehension `dict((c, i + 1) for i, c in enumerate(vocab))` built from position
`i` on: each token is paired with its (1-based) position. -/
def word_idx_from (i : Nat) : List String → List (String × Nat)
  | [] => []
  | c :: cs => (c, i + 1) :: word_idx_from (i + 1) cs

/-- The notebook step `word_idx = dict((c, i + 1) for i, c in enumerate(vocab))`.  The dict
is modelled as its association list; `vocab` never holds duplicates, so
first-match lookup agrees with Python dict lookup. -/
def word_idx (vocabList : List String) : List (String × Nat) :=
  word_idx_from 0 vocabList

/-- Dict lookup `d[w]` on the association-list model: `none` models
`KeyError`. -/
def dlookup (d : List (String × Nat)) (w : String) : Option Nat :=
  match d with
  | [] => none
  | (k, v) :: rest => if k = w then some v else dlookup rest w

/-! ## The vectorizer -/

/-- Modelled from the spec: `keras.preprocessing.sequence.pad_sequences`
is library code of this repository that is not under `src/`; per the
specification, each sequence is left-padded with `0` to the fixed width
`maxlen`, and an example whose sequence exceeds the width is a failure. -/
def pad_one (maxlen : Nat) (x : List Nat) : Option (List Nat) :=
  if x.length ≤ maxlen then some (List.replicate (maxlen - x.length) 0 ++ x)
  else none

/-- Modelled from the spec: `pad_sequences(xs, maxlen)` pads every
sequence as in `pad_one`. -/
def pad_sequences (xs : List (List Nat)) (maxlen : Nat) :
    Option (List (List Nat)) :=
  mapO (pad_one maxlen) xs

/-- The loop body of `vectorize_stories` for one example: look up every
story and question token and the answer token (a missing token raises
`KeyError`), and build the one-hot answer row
`y = np.zeros(len(word_idx) + 1); y[word_idx[answer]] = 1`.
The float entries `0.0` / `1.0` of the numpy row are modelled as the
naturals `0` / `1`. -/
def vectorize_row (widx : List (String × Nat)) (ex : FlatExample) :
    Option (List Nat × List Nat × List Nat) :=
  (mapO (dlookup widx) ex.story).bind (fun x =>
  (mapO (dlookup widx) ex.question).bind (fun xq =>
  (dlookup widx ex.answer).map (fun ai =>
    (x, xq, (List.replicate (widx.length + 1) 0).set ai 1))))

/-- The notebook function `vectorize_stories(data, word_idx, story_maxlen, query_maxlen)`:
vectorize every example, then pad the story rows to `story_maxlen` and
the question rows to `query_maxlen`. -/
def vectorize_stories (data : List FlatExample)
    (widx : List (String × Nat)) (story_maxlen query_maxlen : Nat) :
    Option (List (List Nat) × List (List Nat) × List (List Nat)) :=
  (mapO (vectorize_row widx) data).bind (fun rows =>
  (pad_sequences (rows.map (fun r => r.1)) story_maxlen).bind (fun xs =>
  (pad_sequences (rows.map (fun r => r.2.1)) query_maxlen).map (fun xqs =>
  (xs, xqs, rows.map (fun r => r.2.2)))))

/-! ## Lemmas about the Option-valued traversals -/

theorem mapO_eq_none_of_mem {α : Type u} {β : Type v} {f : α → Option β}
    {l : List α} {a : α} (ha : a ∈ l) (hf : f a = none) : mapO f l = none := by
  induction l with
  | nil => cases ha
  | cons b bs ih =>
    rcases List.mem_cons.mp ha with rfl | hmem
    · simp [mapO, hf]
    · cases hb : f b <;> simp [mapO, hb, ih hmem]

theorem mapO_some_length {α : Type u} {β : Type v} {f : α → Option β}
    {l : List α} {r : List β} (h : mapO f l = some r) : r.length = l.length := by
  induction l generalizing r with
  | nil => simp [mapO] at h; simp [← h]
  | cons b bs ih =>
    cases hb : f b with
    | none => simp [mapO, hb] at h
    | some v =>
      cases hr : mapO f bs with
      | none => simp [mapO, hb, hr] at h
      | some vs => simp [mapO, hb, hr] at h; simp [← h, ih hr]

theorem mapO_some_getElem? {α : Type u} {β : Type v} {f : α → Option β}
    {l : List α} {r : List β} (h : mapO f l = some r) (i : Nat) {a : α}
    (hi : l[i]? = some a) : ∃ b, f a = some b ∧ r[i]? = some b := by
  induction l generalizing r i with
  | nil => simp at hi
  | cons c cs ih =>
    cases hc : f c with
    | none => simp [mapO, hc] at h
    | some v =>
      cases hr : mapO f cs with
      | none => simp [mapO, hc, hr] at h
      | some vs =>
        simp [mapO, hc, hr] at h
        cases i with
        | zero =>
          simp at hi
          exact ⟨v, by simp [← hi, hc, ← h]⟩
        | succ j =>
          simp at hi
          rcases ih hr j hi with ⟨b, hb1, hb2⟩
          exact ⟨b, hb1, by simp [← h, hb2]⟩

theorem mapO_some_of_forall {α : Type u} {β : Type v} {f : α → Option β}
    {l : List α} (h : ∀ a ∈ l, ∃ b, f a = some b) : ∃ r, mapO f l = some r := by
  induction l with
  | nil => exact ⟨[], rfl⟩
  | cons c cs ih =>
    rcases h c (List.mem_cons_self c cs) with ⟨b, hb⟩
    rcases ih (fun a ha => h a (List.mem_cons_of_mem c ha)) with ⟨r, hr⟩
    exact ⟨b :: r, by simp [mapO, hb, hr]⟩

theorem mapO_some_forall_ne_none {α : Type u} {β : Type v} {f : α → Option β}
    {l : List α} {r : List β} (h : mapO f l = some r) :
    ∀ a ∈ l, f a ≠ none := by
  intro a ha hnone
  rw [mapO_eq_none_of_mem ha hnone] at h
  cases h

theorem filterO_eq_none_of_mem {α : Type u} {p : α → Option Bool}
    {l : List α} {a : α} (ha : a ∈ l) (hp : p a = none) : filterO p l = none := by
  induction l with
  | nil => cases ha
  | cons b bs ih =>
    rcases List.mem_cons.mp ha with rfl | hmem
    · simp [filterO, hp]
    · cases hb : p b <;> simp [filterO, hb, ih hmem]

theorem filterO_all_true {α : Type u} {p : α → Option Bool} {l : List α}
    (h : ∀ a ∈ l, p a = some true) : filterO p l = some l := by
  induction l with
  | nil => rfl
  | cons b bs ih =>
    have hb := h b (List.mem_cons_self b bs)
    have hbs := ih (fun a ha => h a (List.mem_cons_of_mem b ha))
    simp [filterO, hb, hbs]

theorem filterO_some_forall_ne_none {α : Type u} {p : α → Option Bool}
    {l : List α} {r : List α} (h : filterO p l = some r) :
    ∀ a ∈ l, p a ≠ none := by
  intro a ha hnone
  rw [filterO_eq_none_of_mem ha hnone] at h
  cases h

/-! ## Lemmas about `flatten` -/

theorem foldl_append_eq_flatten {α : Type u} :
    ∀ (xs : List (List α)) (x : List α),
      xs.foldl (fun a b => a ++ b) x = x ++ xs.flatten
  | [], x => by simp
  | y :: ys, x => by
    simp [List.foldl_cons, foldl_append_eq_flatten ys (x ++ y)]

theorem flatten_eq_some {l : List (List String)} {r : List String}
    (h : flatten l = some r) : r = l.flatten ∧ l ≠ [] := by
  cases l with
  | nil => cases h
  | cons x xs =>
    refine ⟨?_, by simp⟩
    simp [flatten] at h
    simp [← h, foldl_append_eq_flatten]

theorem flatten_eq_none_iff {l : List (List String)} :
    flatten l = none ↔ l = [] := by
  cases l <;> simp [flatten]

/-! ## Lemmas about `word_idx` and `dlookup` -/

theorem word_idx_from_map_snd :
    ∀ (l : List String) (i : Nat),
      (word_idx_from i l).map Prod.snd = List.range' (i + 1) l.length
  | [], _ => rfl
  | c :: cs, i => by
    simp [word_idx_from, List.range'_succ, word_idx_from_map_snd cs (i + 1)]

theorem word_idx_map_snd (v : List String) :
    (word_idx v).map Prod.snd = List.range' 1 v.length :=
  word_idx_from_map_snd v 0

theorem word_idx_from_mem_snd {p : String × Nat} :
    ∀ {l : List String} {i : Nat}, p ∈ word_idx_from i l →
      i + 1 ≤ p.2 ∧ p.2 ≤ i + l.length := by
  intro l
  induction l with
  | nil => intro i h; cases h
  | cons c cs ih =>
    intro i h
    rcases List.mem_cons.mp h with rfl | hmem
    · simp
    · have := ih hmem
      simp only [List.length_cons]
      omega

theorem dlookup_some_mem {d : List (String × Nat)} {w : String} {a : Nat}
    (h : dlookup d w = some a) : (w, a) ∈ d := by
  induction d with
  | nil => cases h
  | cons p rest ih =>
    by_cases hk : p.1 = w
    · cases p
      simp_all [dlookup]
    · cases p
      simp only [dlookup] at h
      rw [if_neg hk] at h
      exact List.mem_cons_of_mem _ (ih h)

theorem dlookup_word_idx_bounds {v : List String} {w : String} {a : Nat}
    (h : dlookup (word_idx v) w = some a) : 1 ≤ a ∧ a ≤ v.length := by
  have := word_idx_from_mem_snd (dlookup_some_mem h)
  simpa using this

theorem dlookup_isSome_of_mem {v : List String} {w : String} :
    ∀ {i : Nat}, w ∈ v → ∃ a, dlookup (word_idx_from i v) w = some a := by
  induction v with
  | nil => intro i h; cases h
  | cons c cs ih =>
    intro i h
    rcases List.mem_cons.mp h with rfl | hmem
    · exact ⟨i + 1, by simp [dlookup]⟩
    · by_cases hc : c = w
      · exact ⟨i + 1, by simp [dlookup, hc]⟩
      · rcases ih (i := i + 1) hmem with ⟨a, ha⟩
        exact ⟨a, by simp [dlookup, hc, ha]⟩

/-! ## Lemmas about `vocab` -/

theorem vocabSet_foldl (exs : List FlatExample) :
    ∀ s : Finset String,
      exs.foldl (fun v ex => v ∪ (exTokens ex).toFinset) s =
        s ∪ (allTokens exs).toFinset := by
  induction exs with
  | nil => intro s; simp [allTokens]
  | cons e es ih =>
    intro s
    simp only [List.foldl_cons, ih, allTokens, List.map_cons, List.flatten_cons,
      List.toFinset_append, Finset.union_assoc]

theorem vocabSet_eq_toFinset (exs : List FlatExample) :
    vocabSet exs = (allTokens exs).toFinset := by
  simpa using vocabSet_foldl exs ∅

theorem vocab_length (exs : List FlatExample) :
    (vocab exs).length = (allTokens exs).dedup.length := by
  simp [vocab]

theorem vocab_mem (exs : List FlatExample) (w : String) :
    w ∈ vocab exs ↔ w ∈ allTokens exs := by
  rw [vocab, (List.perm_insertionSort strLe _).mem_iff, List.mem_dedup]

/-! ## Lemmas about the one-hot row -/

theorem onehot_getElem_self :
    ∀ (n i : Nat), i < n →
      ((List.replicate n (0 : Nat)).set i 1)[i]? = some 1 := by
  intro n
  induction n with
  | zero => intro i h; omega
  | succ m ih =>
    intro i h
    cases i with
    | zero => simp [List.replicate_succ]
    | succ j =>
      simp only [List.replicate_succ, List.set_cons_succ, List.getElem?_cons_succ]
      exact ih j (by omega)

theorem onehot_getElem_other :
    ∀ (n i j : Nat), j < n → j ≠ i →
      ((List.replicate n (0 : Nat)).set i 1)[j]? = some 0 := by
  intro n
  induction n with
  | zero => intro i j h _; omega
  | succ m ih =>
    intro i j h hne
    cases i with
    | zero =>
      cases j with
      | zero => omega
      | succ k =>
        simp only [List.replicate_succ, List.set_cons_zero, List.getElem?_cons_succ]
        simp [List.getElem?_replicate, Nat.lt_of_succ_lt_succ h]
    | succ i0 =>
      cases j with
      | zero => simp [List.replicate_succ]
      | succ k =>
        simp only [List.replicate_succ, List.set_cons_succ, List.getElem?_cons_succ]
        exact ih i0 k (by omega) (by omega)

theorem onehot_sum :
    ∀ (n i : Nat), i < n →
      ((List.replicate n (0 : Nat)).set i 1).sum = 1 := by
  intro n
  induction n with
  | zero => intro i h; omega
  | succ m ih =>
    intro i h
    cases i with
    | zero => simp [List.replicate_succ]
    | succ j =>
      simp only [List.replicate_succ, List.set_cons_succ, List.sum_cons]
      rw [ih j (by omega)]

/-! ## Simulation between the parser and the spec-side walk (default mode) -/

/-- The coupling between a parser state and a spec-side state: the
non-empty sentences of the story buffer are exactly the non-empty
accumulated narrative sentences, and the spec-side emissions so far are
the flattenings of the substories collected so far. -/
def Coupled (c : PState) (s : SState) : Prop :=
  c.story.filter (fun x => !x.isEmpty) = s.narr.filter (fun x => !x.isEmpty) ∧
  s.outs = c.data.map (fun ex => ex.substory.flatten)

theorem step_sim {c : PState} {s : SState} (l : String) (h : Coupled c s) :
    (parse_line false c l = none ∧ spec_line s l = none) ∨
    (∃ c1 s1, parse_line false c l = some c1 ∧ spec_line s l = some s1 ∧
      Coupled c1 s1) := by
  obtain ⟨hstory, houts⟩ := h
  cases hsp : splitFirst ' ' (stripChars l.data) with
  | none => exact Or.inl ⟨by simp [parse_line, hsp], by simp [spec_line, hsp]⟩
  | some p =>
    obtain ⟨nidChars, rest⟩ := p
    cases hpi : parseInt nidChars with
    | none => exact Or.inl ⟨by simp [parse_line, hsp, hpi], by simp [spec_line, hsp, hpi]⟩
    | some nid =>
      have hs0 : (if nid = 1 then [] else c.story).filter (fun x => !x.isEmpty) =
          (if nid = 1 then [] else s.narr).filter (fun x => !x.isEmpty) := by
        by_cases h1 : nid = 1 <;> simp [h1, hstory]
      cases htab : hasTab rest with
      | false =>
        refine Or.inr ⟨⟨c.data, (if nid = 1 then [] else c.story) ++
            [tokenize (String.mk rest)]⟩,
          ⟨s.outs, (if nid = 1 then [] else s.narr) ++
            [tokenize (String.mk rest)]⟩, ?_, ?_, ?_, ?_⟩
        · simp [parse_line, hsp, hpi, htab]
        · simp [spec_line, hsp, hpi, htab]
        · simp only [List.filter_append, hs0]
        · exact houts
      | true =>
        cases h3 : splitTab3 rest with
        | none =>
          exact Or.inl ⟨by simp [parse_line, hsp, hpi, htab, h3],
            by simp [spec_line, hsp, hpi, htab, h3]⟩
        | some t =>
          obtain ⟨q, a, supporting⟩ := t
          refine Or.inr ⟨⟨c.data ++
              [⟨(if nid = 1 then [] else c.story).filter (fun x => !x.isEmpty),
                tokenize (String.mk q), String.mk a⟩],
              (if nid = 1 then [] else c.story) ++ [[]]⟩,
            ⟨s.outs ++ [((if nid = 1 then [] else s.narr).filter
                (fun x => !x.isEmpty)).flatten],
              (if nid = 1 then [] else s.narr)⟩, ?_, ?_, ?_, ?_⟩
          · simp [parse_line, hsp, hpi, htab, h3]
          · simp [spec_line, hsp, hpi, htab, h3]
          · simpa using hs0
          · simp only [List.map_append, List.map_cons, List.map_nil, houts, hs0]

theorem loop_sim : ∀ (lines : List String) (c : PState) (s : SState),
    Coupled c s →
    (parse_loop false c lines = none ∧ spec_loop s lines = none) ∨
    (∃ c1 s1, parse_loop false c lines = some c1 ∧ spec_loop s lines = some s1 ∧
      Coupled c1 s1)
  | [], c, s, h => Or.inr ⟨c, s, rfl, rfl, h⟩
  | l :: ls, c, s, h => by
    rcases step_sim l h with ⟨hc, hs⟩ | ⟨c1, s1, hc, hs, h1⟩
    · exact Or.inl ⟨by simp [parse_loop, hc], by simp [spec_loop, hs]⟩
    · rcases loop_sim ls c1 s1 h1 with ⟨hc2, hs2⟩ | ⟨c2, s2, hc2, hs2, h2⟩
      · exact Or.inl ⟨by simp [parse_loop, hc, hc2], by simp [spec_loop, hs, hs2]⟩
      · exact Or.inr ⟨c2, s2, by simp [parse_loop, hc, hc2],
          by simp [spec_loop, hs, hs2], h2⟩

/-- The story components of a successful flattening pass are the
flattenings of the substories. -/
theorem mapO_flatten_story {data : List RawExample} {out : List FlatExample}
    (h : mapO (fun ex => (flatten ex.substory).map
        (fun fs => FlatExample.mk fs ex.question ex.answer)) data = some out) :
    out.map (fun e => e.story) = data.map (fun ex => ex.substory.flatten) := by
  induction data generalizing out with
  | nil => simp [mapO] at h; simp [← h]
  | cons ex exs ih =>
    cases hf : flatten ex.substory with
    | none => simp [mapO, hf] at h
    | some fs =>
      cases hr : mapO (fun ex => (flatten ex.substory).map
          (fun fs => FlatExample.mk fs ex.question ex.answer)) exs with
      | none => simp [mapO, hf, hr] at h
      | some rest =>
        simp [mapO, hf, hr] at h
        subst h
        simp only [List.map_cons, ih hr, List.cons.injEq, and_true]
        exact (flatten_eq_some hf).1

/-! ## The claims -/

/-- C1: in default (not only-supporting) mode, the story tokens of every
example produced by `get_stories` are the concatenation, in order, of the
tokenized non-empty narrative sentences accumulated since the most recent
line whose sentence-id is 1 (a sentence-id of 1 empties the story buffer,
and the empty placeholder sentences appended after earlier question lines
are excluded from the flattened story): the story components of the
result agree, question line by question line, with the spec-side
reconstruction `spec_stories`. -/
theorem c1_story_is_narrative_since_reset (lines : List String)
    (out : List FlatExample) (h : get_stories lines false none = some out) :
    spec_stories lines = some (out.map (fun e => e.story)) := by
  cases hl : parse_loop false ⟨[], []⟩ lines with
  | none => simp [get_stories, parse_stories, hl] at h
  | some c1 =>
    have hp : parse_stories lines false = some c1.data := by
      simp [parse_stories, hl]
    rcases loop_sim lines ⟨[], []⟩ ⟨[], []⟩ ⟨rfl, rfl⟩ with ⟨hl2, _⟩ |
      ⟨c2, s2, hl2, hs2, hco⟩
    · rw [hl] at hl2; cases hl2
    · rw [hl] at hl2
      injection hl2 with hc2
      subst hc2
      have hkept : filterO (keepShort none) c1.data = some c1.data :=
        filterO_all_true (fun a _ => rfl)
      rw [get_stories] at h
      rw [hp] at h
      simp only [Option.some_bind, hkept] at h
      cases hm : mapO (fun ex => (flatten ex.substory).map
          (fun fs => FlatExample.mk fs ex.question ex.answer)) c1.data with
      | none => rw [hm] at h; cases h
      | some out0 =>
        rw [hm] at h
        simp only [Option.some_bind] at h
        cases hne : out0.isEmpty with
        | true => rw [hne] at h; simp at h
        | false =>
          rw [hne] at h
          simp at h
          subst h
          rw [spec_stories, hs2]
          simp [hco.2, mapO_flatten_story hm]

/-- Witness for C1 at a concrete two-line story. -/
theorem c1_story_is_narrative_since_reset_witness :
    get_stories ["1 John went.", "2 Where is John?\tgarden\t1"] false none =
      some [⟨["John", "went", "."], ["Where", "is", "John", "?"], "garden"⟩] ∧
    spec_stories ["1 John went.", "2 Where is John?\tgarden\t1"] =
      some [["John", "went", "."]] := by
  refine ⟨by decide, ?_⟩
  simpa using c1_story_is_narrative_since_reset _
    [⟨["John", "went", "."], ["Where", "is", "John", "?"], "garden"⟩]
    (by decide)

/-- C2: tokenizing `"Bob dropped the apple. Where is the apple?"` yields
exactly the documented token list (and the sub-sentence
`"Bob dropped the apple."` yields its documented prefix): tokenization
splits on runs of non-word characters, keeps the punctuation, and drops
the whitespace-only fragments. -/
theorem c2_tokenize_doc_example :
    tokenize "Bob dropped the apple. Where is the apple?" =
      ["Bob", "dropped", "the", "apple", ".", "Where", "is", "the",
        "apple", "?"] ∧
    tokenize "Bob dropped the apple." =
      ["Bob", "dropped", "the", "apple", "."] := by
  constructor <;> decide

/-- The examples the specification says survive a max-length filter with
bound `m`: exactly those whose flattened story has fewer than `m` tokens,
flattened, in their original order. -/
def spec_kept (m : Nat) (data : List RawExample) : List FlatExample :=
  data.filterMap (fun ex => (flatten ex.substory).bind (fun fs =>
    if fs.length < m then some (FlatExample.mk fs ex.question ex.answer)
    else none))

theorem filter_mapO_spec_kept {m : Nat} (hm : 0 < m) :
    ∀ {data kept : List RawExample} {out : List FlatExample},
      filterO (keepShort (some m)) data = some kept →
      mapO (fun ex => (flatten ex.substory).map
        (fun fs => FlatExample.mk fs ex.question ex.answer)) kept = some out →
      out = spec_kept m data := by
  intro data
  induction data with
  | nil =>
    intro kept out hf hmap
    simp [filterO] at hf
    subst hf
    simp [mapO] at hmap
    simp [← hmap, spec_kept]
  | cons ex exs ih =>
    intro kept out hf hmap
    have hm0 : m ≠ 0 := Nat.pos_iff_ne_zero.mp hm
    cases hfl : flatten ex.substory with
    | none =>
      rw [filterO_eq_none_of_mem (List.mem_cons_self ex exs)
        (by simp [keepShort, hm0, hfl])] at hf
      cases hf
    | some fs =>
      have hp : keepShort (some m) ex = some (decide (fs.length < m)) := by
        simp [keepShort, hm0, hfl]
      cases hrest : filterO (keepShort (some m)) exs with
      | none => simp [filterO, hp, hrest] at hf
      | some kept0 =>
        simp only [filterO, hp, Option.some_bind, hrest] at hf
        by_cases hlen : fs.length < m
        · simp [hlen] at hf
          subst hf
          cases hout : mapO (fun ex => (flatten ex.substory).map
              (fun fs => FlatExample.mk fs ex.question ex.answer)) kept0 with
          | none => simp [mapO, hfl, hout] at hmap
          | some out0 =>
            simp [mapO, hfl, hout] at hmap
            subst hmap
            simp only [spec_kept, List.filterMap_cons, hfl, Option.some_bind,
              hlen, if_true]
            have := ih hrest hout
            simpa [spec_kept] using this
        · simp [hlen] at hf
          subst hf
          simp only [spec_kept, List.filterMap_cons, hfl, Option.some_bind,
            hlen, if_false]
          have := ih hrest hmap
          simpa [spec_kept] using this

/-- C3 (amended): for every POSITIVE caller-supplied bound, `get_stories`
keeps exactly those examples whose flattened story token count is
strictly less than the bound, and hence every returned example has story
length strictly below the bound.  (For the bound `0` the claim as stated
fails: `0` is falsy in Python, so `not max_length` disables the filter
entirely; see the counterexample.) -/
theorem c3_positive_bound_filters (lines : List String) (os : Bool)
    (m : Nat) (out : List FlatExample) (hm : 0 < m)
    (h : get_stories lines os (some m) = some out) :
    (∃ data, parse_stories lines os = some data ∧ out = spec_kept m data) ∧
    ∀ e ∈ out, e.story.length < m := by
  cases hp : parse_stories lines os with
  | none => rw [get_stories, hp] at h; cases h
  | some data =>
    rw [get_stories, hp] at h
    simp only [Option.some_bind] at h
    cases hf : filterO (keepShort (some m)) data with
    | none => rw [hf] at h; cases h
    | some kept =>
      rw [hf] at h
      simp only [Option.some_bind] at h
      cases hmap : mapO (fun ex => (flatten ex.substory).map
          (fun fs => FlatExample.mk fs ex.question ex.answer)) kept with
      | none => rw [hmap] at h; cases h
      | some out0 =>
        rw [hmap] at h
        simp only [Option.some_bind] at h
        cases hne : out0.isEmpty with
        | true => rw [hne] at h; simp at h
        | false =>
          rw [hne] at h
          simp at h
          subst h
          have hchar := filter_mapO_spec_kept hm hf hmap
          refine ⟨⟨data, rfl, hchar⟩, ?_⟩
          intro e he
          rw [hchar] at he
          rcases List.mem_filterMap.mp he with ⟨ex, _, hex⟩
          cases hfl : flatten ex.substory with
          | none => rw [hfl] at hex; cases hex
          | some fs =>
            rw [hfl] at hex
            simp only [Option.some_bind] at hex
            by_cases hlen : fs.length < m
            · rw [if_pos hlen] at hex
              injection hex with hex
              rw [← hex]
              simpa using hlen
            · rw [if_neg hlen] at hex; cases hex

/-- Witness for C3 (amended) at a concrete two-story input with bound 4:
only the three-token story survives. -/
theorem c3_positive_bound_filters_witness :
    (FlatExample.mk ["A", "b", "."] ["Q", "?"] "x").story.length < 4 :=
  (c3_positive_bound_filters
    ["1 A b.", "2 Q?\tx\t1", "1 C d.", "2 E f.", "3 Q?\ty\t1"] false 4
    [FlatExample.mk ["A", "b", "."] ["Q", "?"] "x"]
    (by decide) (by decide)).2
    (FlatExample.mk ["A", "b", "."] ["Q", "?"] "x") (by simp)

/-- Counterexample to C3 as stated: with the caller-supplied bound `0`
every example should be discarded (no story has fewer than zero tokens),
but `0` is falsy in Python, so `get_stories` keeps everything: it returns
an example whose story length 3 is not strictly less than the bound. -/
theorem c3_zero_bound_counterexample :
    get_stories ["1 John went.", "2 Where is John?\tgarden\t1"] false
        (some 0) =
      some [⟨["John", "went", "."], ["Where", "is", "John", "?"], "garden"⟩] ∧
    ¬ ((["John", "went", "."] : List String).length < 0) :=
  ⟨by decide, by decide⟩

/-- C10: `get_stories` raises whenever some parsed example has an empty
resolved story-sentence list (flattening reduces over an empty sequence
with no initial value), and conversely any successful run had no such
example. -/
theorem c10_empty_substory_fails (lines : List String) (os : Bool)
    (ml : Option Nat) (data : List RawExample)
    (hp : parse_stories lines os = some data) :
    ((∃ ex ∈ data, ex.substory = []) → get_stories lines os ml = none) ∧
    (∀ out, get_stories lines os ml = some out →
      ∀ ex ∈ data, ex.substory ≠ []) := by
  have hA : (∃ ex ∈ data, ex.substory = []) →
      get_stories lines os ml = none := by
    rintro ⟨ex, hmem, hempty⟩
    have hfl : flatten ex.substory = none := flatten_eq_none_iff.mpr hempty
    rw [get_stories, hp]
    simp only [Option.some_bind]
    rcases ml with _ | m
    · have hft : filterO (keepShort none) data = some data :=
        filterO_all_true (fun a _ => rfl)
      rw [hft]
      simp only [Option.some_bind]
      rw [mapO_eq_none_of_mem hmem (by simp [hfl])]
      rfl
    · by_cases hm : m = 0
      · subst hm
        have hft : filterO (keepShort (some 0)) data = some data :=
          filterO_all_true (fun a _ => by simp [keepShort])
        rw [hft]
        simp only [Option.some_bind]
        rw [mapO_eq_none_of_mem hmem (by simp [hfl])]
        rfl
      · rw [filterO_eq_none_of_mem hmem (by simp [keepShort, hm, hfl])]
        rfl
  refine ⟨hA, fun out hsucc ex hmem hempty => ?_⟩
  rw [hA ⟨ex, hmem, hempty⟩] at hsucc
  cases hsucc

/-- Witness for C10: a story whose first line is already a question has
an empty substory in default mode, and `get_stories` fails on it. -/
theorem c10_empty_substory_fails_witness :
    get_stories ["1 Where is A?\tnowhere\t1"] false none = none :=
  (c10_empty_substory_fails ["1 Where is A?\tnowhere\t1"] false none
      [⟨[], ["Where", "is", "A", "?"], "nowhere"⟩] (by decide)).1
    ⟨⟨[], ["Where", "is", "A", "?"], "nowhere"⟩, by simp, rfl⟩

theorem word_idx_length (v : List String) :
    (word_idx v).length = v.length := by
  have h := congrArg List.length (word_idx_map_snd v)
  simpa using h

/-- C4: over the union of all train and test examples, the vocabulary ids
are exactly `1, 2, ..., N` in order, where `N` is the number of distinct
tokens across story, question and answer tokens of all examples; the ids
are pairwise distinct, and `0` is never assigned to any vocabulary
token. -/
theorem c4_ids_contiguous_from_one (train test : List FlatExample) :
    (word_idx (vocab (train ++ test))).map Prod.snd =
      List.range' 1 ((allTokens (train ++ test)).dedup.length) ∧
    ((word_idx (vocab (train ++ test))).map Prod.snd).Nodup ∧
    ∀ p ∈ word_idx (vocab (train ++ test)), p.2 ≠ 0 := by
  refine ⟨?_, ?_, ?_⟩
  · rw [word_idx_map_snd, vocab_length]
  · rw [word_idx_map_snd]
    exact List.nodup_range' _ _
  · intro p hp
    have h := word_idx_from_mem_snd hp
    omega

/-- C9: vocabulary construction is deterministic -- any two example lists
carrying the same underlying token set (in particular the same list
twice, or any reordering or duplication) receive the identical sorted
vocabulary and the identical token-to-id assignment. -/
theorem c9_vocab_deterministic (l r : List FlatExample)
    (h : (allTokens l).toFinset = (allTokens r).toFinset) :
    vocab l = vocab r ∧ word_idx (vocab l) = word_idx (vocab r) := by
  have hperm : (allTokens l).dedup.Perm (allTokens r).dedup :=
    List.toFinset_eq_iff_perm_dedup.mp h
  have hv : vocab l = vocab r :=
    List.eq_of_perm_of_sorted
      (((List.perm_insertionSort strLe _).trans hperm).trans
        (List.perm_insertionSort strLe _).symm)
      (List.sorted_insertionSort strLe _)
      (List.sorted_insertionSort strLe _)
  exact ⟨hv, by rw [hv]⟩

/-- Witness for C9: a reordered and duplicated presentation of the token
set `{a, b, c, d}` yields the same id assignment. -/
theorem c9_vocab_deterministic_witness :
    word_idx (vocab [⟨["b", "a"], ["c"], "d"⟩]) =
      word_idx (vocab [⟨["a"], ["b", "c", "c"], "d"⟩, ⟨["a", "b"], [], "c"⟩]) :=
  (c9_vocab_deterministic _ _ (by decide)).2

/-! ## Lemmas about the vectorizer -/

theorem mapO_some_mem_rev {α : Type u} {β : Type v} {f : α → Option β}
    {l : List α} {r : List β} (h : mapO f l = some r) {b : β} (hb : b ∈ r) :
    ∃ a ∈ l, f a = some b := by
  induction l generalizing r with
  | nil => simp [mapO] at h; subst h; cases hb
  | cons c cs ih =>
    cases hc : f c with
    | none => simp [mapO, hc] at h
    | some v =>
      cases hr : mapO f cs with
      | none => simp [mapO, hc, hr] at h
      | some vs =>
        simp [mapO, hc, hr] at h
        subst h
        rcases List.mem_cons.mp hb with rfl | hmem
        · exact ⟨c, List.mem_cons_self c cs, hc⟩
        · rcases ih hr hmem with ⟨a, ha1, ha2⟩
          exact ⟨a, List.mem_cons_of_mem c ha1, ha2⟩

theorem vectorize_row_some {w : List (String × Nat)} {ex : FlatExample}
    {r : List Nat × List Nat × List Nat} (h : vectorize_row w ex = some r) :
    ∃ ids qids ai,
      mapO (dlookup w) ex.story = some ids ∧
      mapO (dlookup w) ex.question = some qids ∧
      dlookup w ex.answer = some ai ∧
      r = (ids, qids, (List.replicate (w.length + 1) 0).set ai 1) := by
  cases hst : mapO (dlookup w) ex.story with
  | none => rw [vectorize_row, hst] at h; cases h
  | some ids =>
    cases hq : mapO (dlookup w) ex.question with
    | none => rw [vectorize_row, hst, hq] at h; cases h
    | some qids =>
      cases ha : dlookup w ex.answer with
      | none => rw [vectorize_row, hst, hq, ha] at h; cases h
      | some ai =>
        rw [vectorize_row, hst, hq, ha] at h
        simp at h
        exact ⟨ids, qids, ai, rfl, rfl, rfl, h.symm⟩

/-- Destructuring a successful `vectorize_stories` call. -/
theorem vectorize_stories_some {data : List FlatExample}
    {w : List (String × Nat)} {m qm : Nat}
    {xs xqs ys : List (List Nat)}
    (h : vectorize_stories data w m qm = some (xs, xqs, ys)) :
    ∃ rows, mapO (vectorize_row w) data = some rows ∧
      pad_sequences (rows.map (fun r => r.1)) m = some xs ∧
      pad_sequences (rows.map (fun r => r.2.1)) qm = some xqs ∧
      ys = rows.map (fun r => r.2.2) := by
  cases hrows : mapO (vectorize_row w) data with
  | none => rw [vectorize_stories, hrows] at h; cases h
  | some rows =>
    rw [vectorize_stories, hrows] at h
    simp only [Option.some_bind] at h
    cases hxs : pad_sequences (rows.map (fun r => r.1)) m with
    | none => rw [hxs] at h; cases h
    | some xs0 =>
      rw [hxs] at h
      simp only [Option.some_bind] at h
      cases hxqs : pad_sequences (rows.map (fun r => r.2.1)) qm with
      | none => rw [hxqs] at h; cases h
      | some xqs0 =>
        rw [hxqs] at h
        simp at h
        obtain ⟨h1, h2, h3⟩ := h
        exact ⟨rows, rfl, by rw [hxs, h1], by rw [hxqs, h2], h3.symm⟩

/-- C5: an example whose story fits the story width is vectorized into a
right-aligned row: the trailing slice of the story row is exactly the
example's token-id sequence and every leading entry is `0`; the question
row obeys the same left-padding policy with respect to the question
width. -/
theorem c5_right_aligned_rows (data : List FlatExample)
    (w : List (String × Nat)) (m qm : Nat) (xs xqs ys : List (List Nat))
    (i : Nat) (ex : FlatExample)
    (h : vectorize_stories data w m qm = some (xs, xqs, ys))
    (hex : data[i]? = some ex)
    (hm : ex.story.length ≤ m) (hq : ex.question.length ≤ qm) :
    ∃ ids row qids qrow,
      mapO (dlookup w) ex.story = some ids ∧
      xs[i]? = some row ∧
      row.drop (m - ex.story.length) = ids ∧
      row.take (m - ex.story.length) =
        List.replicate (m - ex.story.length) 0 ∧
      mapO (dlookup w) ex.question = some qids ∧
      xqs[i]? = some qrow ∧
      qrow.drop (qm - ex.question.length) = qids ∧
      qrow.take (qm - ex.question.length) =
        List.replicate (qm - ex.question.length) 0 := by
  rcases vectorize_stories_some h with ⟨rows, hrows, hxs, hxqs, _⟩
  rcases mapO_some_getElem? hrows i hex with ⟨r, hvr, hri⟩
  rcases vectorize_row_some hvr with ⟨ids, qids, ai, hids, hqids, _, hr⟩
  subst hr
  have hsl : ids.length = ex.story.length := mapO_some_length hids
  have hql : qids.length = ex.question.length := mapO_some_length hqids
  have hmap1 : (rows.map (fun r => r.1))[i]? = some ids := by
    rw [List.getElem?_map _ rows i, hri]; rfl
  have hmap2 : (rows.map (fun r => r.2.1))[i]? = some qids := by
    rw [List.getElem?_map _ rows i, hri]; rfl
  rcases mapO_some_getElem? hxs i hmap1 with ⟨row, hpad, hrow⟩
  rcases mapO_some_getElem? hxqs i hmap2 with ⟨qrow, hqpad, hqrow⟩
  rw [pad_one, if_pos (by omega)] at hpad
  rw [pad_one, if_pos (by omega)] at hqpad
  injection hpad with hpad
  injection hqpad with hqpad
  subst hpad
  subst hqpad
  refine ⟨ids, _, qids, _, hids, hrow, ?_, ?_, hqids, hqrow, ?_, ?_⟩
  · rw [hsl]
    exact List.drop_left' (by simp [hsl])
  · rw [hsl]
    exact List.take_left' (by simp [hsl])
  · rw [hql]
    exact List.drop_left' (by simp [hql])
  · rw [hql]
    exact List.take_left' (by simp [hql])

/-- Witness for C5 at a one-example input with widths 2 and 1. -/
theorem c5_right_aligned_rows_witness :
    ∃ ids row qids qrow,
      mapO (dlookup (word_idx ["a", "b"])) ["b"] = some ids ∧
      [[0, 2]][0]? = some row ∧
      row.drop (2 - (["b"] : List String).length) = ids ∧
      row.take (2 - (["b"] : List String).length) =
        List.replicate (2 - (["b"] : List String).length) 0 ∧
      mapO (dlookup (word_idx ["a", "b"])) ["a"] = some qids ∧
      [[1]][0]? = some qrow ∧
      qrow.drop (1 - (["a"] : List String).length) = qids ∧
      qrow.take (1 - (["a"] : List String).length) =
        List.replicate (1 - (["a"] : List String).length) 0 :=
  c5_right_aligned_rows [⟨["b"], ["a"], "a"⟩] (word_idx ["a", "b"]) 2 1
    [[0, 2]] [[1]] [[0, 1, 0]] 0 ⟨["b"], ["a"], "a"⟩
    (by decide) (by decide) (by decide) (by decide)

/-- C6: when vectorizing with the index built from `vocab`, every
example's answer row has length `(vocab).length + 1` (vocabulary size
plus one), carries `1` exactly at the answer token's id, `0` at every
other index, and sums to `1`. -/
theorem c6_answer_onehot (exs data : List FlatExample) (m qm : Nat)
    (xs xqs ys : List (List Nat)) (i : Nat) (ex : FlatExample)
    (h : vectorize_stories data (word_idx (vocab exs)) m qm =
      some (xs, xqs, ys))
    (hex : data[i]? = some ex) :
    ∃ y ai, ys[i]? = some y ∧
      dlookup (word_idx (vocab exs)) ex.answer = some ai ∧
      y.length = (vocab exs).length + 1 ∧
      y[ai]? = some 1 ∧
      (∀ j, j < y.length → j ≠ ai → y[j]? = some 0) ∧
      y.sum = 1 := by
  rcases vectorize_stories_some h with ⟨rows, hrows, _, _, hys⟩
  rcases mapO_some_getElem? hrows i hex with ⟨r, hvr, hri⟩
  rcases vectorize_row_some hvr with ⟨ids, qids, ai, _, _, ha, hr⟩
  subst hr
  have hwl : (word_idx (vocab exs)).length = (vocab exs).length :=
    word_idx_length (vocab exs)
  have hai : 1 ≤ ai ∧ ai ≤ (vocab exs).length := dlookup_word_idx_bounds ha
  have haiw : ai < (word_idx (vocab exs)).length + 1 := by omega
  have hylen : ((List.replicate ((word_idx (vocab exs)).length + 1)
      (0 : Nat)).set ai 1).length = (vocab exs).length + 1 := by
    simp [hwl]
  refine ⟨(List.replicate ((word_idx (vocab exs)).length + 1) 0).set ai 1,
    ai, ?_, ha, hylen, ?_, ?_, ?_⟩
  · rw [hys, List.getElem?_map _ rows i, hri]
    rfl
  · exact onehot_getElem_self _ ai haiw
  · intro j hj hne
    rw [hylen] at hj
    exact onehot_getElem_other _ ai j (by omega) hne
  · exact onehot_sum _ ai haiw

/-- Witness for C6 at a one-example corpus. -/
theorem c6_answer_onehot_witness :
    ∃ y ai, [[0, 1, 0]][0]? = some y ∧
      dlookup (word_idx (vocab [⟨["b"], ["a"], "a"⟩])) "a" = some ai ∧
      y.length = (vocab [⟨["b"], ["a"], "a"⟩]).length + 1 ∧
      y[ai]? = some 1 ∧
      (∀ j, j < y.length → j ≠ ai → y[j]? = some 0) ∧
      y.sum = 1 :=
  c6_answer_onehot [⟨["b"], ["a"], "a"⟩] [⟨["b"], ["a"], "a"⟩] 2 1
    [[0, 2]] [[1]] [[0, 1, 0]] 0 ⟨["b"], ["a"], "a"⟩ (by decide) (by decide)

/-- A missing token makes the per-example vectorization raise
`KeyError`. -/
theorem vectorize_row_none_of_missing {w : List (String × Nat)}
    {ex : FlatExample}
    (h : ∃ t, (t ∈ ex.story ∨ t ∈ ex.question ∨ t = ex.answer) ∧
      dlookup w t = none) :
    vectorize_row w ex = none := by
  rcases h with ⟨t, ht, hnone⟩
  rcases ht with hst | hq | ha
  · rw [vectorize_row, mapO_eq_none_of_mem hst hnone]
    rfl
  · cases hstm : mapO (dlookup w) ex.story with
    | none => rw [vectorize_row, hstm]; rfl
    | some ids =>
      rw [vectorize_row, hstm]
      simp only [Option.some_bind]
      rw [mapO_eq_none_of_mem hq hnone]
      rfl
  · cases hstm : mapO (dlookup w) ex.story with
    | none => rw [vectorize_row, hstm]; rfl
    | some ids =>
      cases hqm : mapO (dlookup w) ex.question with
      | none => rw [vectorize_row, hstm, hqm]; rfl
      | some qids =>
        rw [vectorize_row, hstm, hqm]
        simp only [Option.some_bind]
        rw [ha] at hnone
        rw [hnone]
        rfl

/-- C7 (amended): a vocabulary-lookup miss on any story, question or
answer token of any example makes `vectorize_stories` raise rather than
coerce to a sentinel id; and when every token of every example is in the
mapping AND every example fits the story and question widths, it
succeeds.  (As stated the claim is false: token coverage alone does not
guarantee success, because an example longer than the width also fails;
see the counterexample.) -/
theorem c7_lookup_miss_fatal (data : List FlatExample)
    (w : List (String × Nat)) (m qm : Nat) :
    ((∃ ex ∈ data, ∃ t, (t ∈ ex.story ∨ t ∈ ex.question ∨ t = ex.answer) ∧
        dlookup w t = none) →
      vectorize_stories data w m qm = none) ∧
    ((∀ ex ∈ data,
        (∀ t, (t ∈ ex.story ∨ t ∈ ex.question ∨ t = ex.answer) →
          (dlookup w t).isSome) ∧
        ex.story.length ≤ m ∧ ex.question.length ≤ qm) →
      ∃ v, vectorize_stories data w m qm = some v) := by
  constructor
  · rintro ⟨ex, hmem, hmiss⟩
    rw [vectorize_stories,
      mapO_eq_none_of_mem hmem (vectorize_row_none_of_missing hmiss)]
    rfl
  · intro hall
    have hrows : ∃ rows, mapO (vectorize_row w) data = some rows := by
      refine mapO_some_of_forall (fun ex hex => ?_)
      rcases hall ex hex with ⟨hlook, _, _⟩
      rcases Option.isSome_iff_exists.mp
        (hlook ex.answer (Or.inr (Or.inr rfl))) with ⟨ai, hai⟩
      rcases mapO_some_of_forall (f := dlookup w) (l := ex.story)
          (fun t ht => Option.isSome_iff_exists.mp
            (hlook t (Or.inl ht))) with ⟨ids, hids⟩
      rcases mapO_some_of_forall (f := dlookup w) (l := ex.question)
          (fun t ht => Option.isSome_iff_exists.mp
            (hlook t (Or.inr (Or.inl ht)))) with ⟨qids, hqids⟩
      exact ⟨_, by rw [vectorize_row, hids, hqids, hai]; rfl⟩
    rcases hrows with ⟨rows, hrows⟩
    have hxs : ∃ xs, pad_sequences (rows.map (fun r => r.1)) m = some xs := by
      refine mapO_some_of_forall (fun x hx => ?_)
      rcases List.mem_map.mp hx with ⟨r, hrmem, hr1⟩
      rcases mapO_some_mem_rev hrows hrmem with ⟨ex, hexmem, hvr⟩
      rcases vectorize_row_some hvr with ⟨ids, qids, ai, hids, _, _, hreq⟩
      have hlen : x.length = ex.story.length := by
        rw [← hr1, hreq]
        exact mapO_some_length hids
      exact ⟨_, by rw [pad_one, if_pos (by
        rw [hlen]; exact (hall ex hexmem).2.1)]⟩
    rcases hxs with ⟨xs, hxs⟩
    have hxqs : ∃ xqs,
        pad_sequences (rows.map (fun r => r.2.1)) qm = some xqs := by
      refine mapO_some_of_forall (fun x hx => ?_)
      rcases List.mem_map.mp hx with ⟨r, hrmem, hr1⟩
      rcases mapO_some_mem_rev hrows hrmem with ⟨ex, hexmem, hvr⟩
      rcases vectorize_row_some hvr with ⟨ids, qids, ai, _, hqids, _, hreq⟩
      have hlen : x.length = ex.question.length := by
        rw [← hr1, hreq]
        exact mapO_some_length hqids
      exact ⟨_, by rw [pad_one, if_pos (by
        rw [hlen]; exact (hall ex hexmem).2.2)]⟩
    rcases hxqs with ⟨xqs, hxqs⟩
    refine ⟨(xs, xqs, rows.map (fun r => r.2.2)), ?_⟩
    rw [vectorize_stories, hrows]
    simp only [Option.some_bind]
    rw [hxs]
    simp only [Option.some_bind]
    rw [hxqs]
    rfl

/-- Witness for C7 (amended): a fully covered, width-respecting corpus
vectorizes, and dropping a token from the mapping makes it raise. -/
theorem c7_lookup_miss_fatal_witness :
    vectorize_stories [⟨["b"], ["b"], "z"⟩] (word_idx ["b"]) 1 1 = none ∧
    ∃ v, vectorize_stories [⟨["b"], ["b"], "b"⟩] (word_idx ["b"]) 1 1 =
      some v :=
  ⟨(c7_lookup_miss_fatal [⟨["b"], ["b"], "z"⟩] (word_idx ["b"]) 1 1).1
      ⟨⟨["b"], ["b"], "z"⟩, by simp, "z", Or.inr (Or.inr rfl), by decide⟩,
    (c7_lookup_miss_fatal [⟨["b"], ["b"], "b"⟩] (word_idx ["b"]) 1 1).2
      (by
        intro ex hex
        simp only [List.mem_singleton] at hex
        subst hex
        refine ⟨fun t ht => ?_, by decide, by decide⟩
        rcases ht with h | h | h
        · simp at h; subst h; decide
        · simp at h; subst h; decide
        · subst h; decide)⟩

/-- Counterexample to C7 as stated: every token of the example is present
in the mapping, yet vectorization fails, because the story is longer than
the story width. -/
theorem c7_missing_token_only_counterexample :
    vectorize_stories [⟨["a", "b"], ["a"], "a"⟩] (word_idx ["a", "b"]) 1 1 =
      none ∧
    ∀ t ∈ exTokens ⟨["a", "b"], ["a"], "a"⟩,
      (dlookup (word_idx ["a", "b"]) t).isSome :=
  ⟨by decide, by decide⟩

/-- C8: an example whose story token count exceeds the fixed story width
makes `vectorize_stories` fail rather than produce a row of that
width. -/
theorem c8_overlong_story_fails (data : List FlatExample)
    (w : List (String × Nat)) (m qm : Nat) (ex : FlatExample)
    (hmem : ex ∈ data) (hlen : m < ex.story.length) :
    vectorize_stories data w m qm = none := by
  cases hrows : mapO (vectorize_row w) data with
  | none => rw [vectorize_stories, hrows]; rfl
  | some rows =>
    rcases List.mem_iff_getElem?.mp hmem with ⟨i, hi⟩
    rcases mapO_some_getElem? hrows i hi with ⟨r, hvr, hri⟩
    rcases vectorize_row_some hvr with ⟨ids, qids, ai, hids, _, _, hreq⟩
    have hidlen : ids.length = ex.story.length := mapO_some_length hids
    have hmemids : ids ∈ rows.map (fun r => r.1) := by
      have hmi : (rows.map (fun r => r.1))[i]? = some ids := by
        rw [List.getElem?_map _ rows i, hri, hreq]
        rfl
      exact List.getElem?_mem hmi
    have hpadnone : pad_one m ids = none := by
      rw [pad_one, if_neg (by omega)]
    rw [vectorize_stories, hrows]
    simp only [Option.some_bind]
    rw [pad_sequences, mapO_eq_none_of_mem hmemids hpadnone]
    rfl

/-- Witness for C8: story of two tokens against width 1. -/
theorem c8_overlong_story_fails_witness :
    vectorize_stories [⟨["a", "b"], [], "a"⟩] (word_idx ["a", "b"]) 1 0 =
      none :=
  c8_overlong_story_fails [⟨["a", "b"], [], "a"⟩] (word_idx ["a", "b"]) 1 0
    ⟨["a", "b"], [], "a"⟩ (by simp) (by decide)
